import Mathlib

/-!
# RetailScraper: verification of the crawl scheduler and proxy/browser resource pool

Shallow embedding of the core of the RetailScraper repository:

* `src/crawlers/walmart_products_parallel_spider.py` — the parallel crawl
  scheduler (`WalmartProductsParallelSpider`): store admission under a
  parallel-store ceiling, per-store pending-category reference counting,
  and the per-category pagination protocol.
* `src/helpers/adaptive_proxy_manager.py` — `AdaptiveProxyManager`.
* `src/helpers/enhanced_proxy_manager.py` — `EnhancedProxyManager`.
* `src/hybrid_browser_middleware.py` — `HybridBrowserMiddleware` (browser
  pool, request execution, browser return on completion).
* `src/enhanced_middleware.py` — `EnhancedProxyBrowserMiddleware`
  (browser pool with failure-triggered replacement).

Conventions: Python `datetime` timestamps are modelled as integers counting
seconds (`timedelta(minutes=m)` becomes `60 * m`); Python floats are
modelled as exact rationals `ℚ`; Python `None`-able fields become `Option`;
dictionaries with `defaultdict` semantics become total functions from keys
to values, with the default value at untouched keys.  Sources of
randomness (`random.random`, `random.choice`) are passed in explicitly as
oracle values.  All state mutation is explicit state passing.
-/

namespace RetailScraper

/-! ## Crawl scheduler (`walmart_products_parallel_spider.py`)

The mutable spider state consists of `active_stores : int`,
`parallel_stores : int`, the `stores_queue` (modelled as the list of
queued store ids, front of the list = next `get_nowait`), the
`processed_stores` set and the `store_category_status` dict
(store id ↦ pending category count, an `int` in Python). -/

structure SpiderState where
  activeStores : ℤ
  parallelStores : ℤ
  queue : List String
  processed : List String
  status : String → Option ℤ

/-- `category_complete_for_store` (spider lines 251–268): under the lock,
if the store is tracked, decrement its pending-category counter; when the
counter drops to `<= 0`, decrement `active_stores` (guarded by
`active_stores > 0`) and delete the store from `store_category_status`.
An untracked store only logs a warning. -/
def categoryCompleteForStore (s : SpiderState) (sid : String) : SpiderState :=
  match s.status sid with
  | none => s
  | some c =>
    let c1 := c - 1
    if c1 ≤ 0 then
      { s with
        activeStores := if 0 < s.activeStores then s.activeStores - 1 else s.activeStores
        status := fun x => if x = sid then none else s.status x }
    else
      { s with status := fun x => if x = sid then some c1 else s.status x }

/-- The per-category outcome that ends one page of pagination for a store:
either `parse_category` reached a last/empty page (success path) or
`handle_category_error` fired (fetch failure).  Both code paths call
`category_complete_for_store` (lines 207 and 220/249). -/
inductive DrainOutcome where
  | lastPage
  | fetchFailure
deriving DecidableEq, Repr

/-- Effect of one drain report on the spider state: both the success path
(`parse_category`, lines 220/249) and the failure path
(`handle_category_error`, line 207) invoke `category_complete_for_store`. -/
def applyDrain (s : SpiderState) (sid : String) (_o : DrainOutcome) : SpiderState :=
  categoryCompleteForStore s sid

/-- Folding a sequence of drain reports for one store over the state. -/
def runDrains (s : SpiderState) (sid : String) (os : List DrainOutcome) : SpiderState :=
  os.foldl (fun st o => applyDrain st sid o) s

/-- The loop body of `schedule_next_stores` (spider lines 97–118), acting on
`(queue, processed, active)` with ceiling `parallel`: while
`active < parallel` and the queue is non-empty, dequeue a store; if it has
not been processed yet, mark it processed and increment `active`
(admission); otherwise drop it and continue. -/
def schedAux (parallel : ℤ) :
    List String → List String → ℤ → List String × List String × ℤ
  | [], processed, active => ([], processed, active)
  | st :: rest, processed, active =>
    if active < parallel then
      if st ∈ processed then
        schedAux parallel rest processed active
      else
        schedAux parallel rest (st :: processed) (active + 1)
    else (st :: rest, processed, active)

/-- `schedule_next_stores` (spider lines 97–118) as a state transformer. -/
def scheduleNextStores (s : SpiderState) : SpiderState :=
  let r := schedAux s.parallelStores s.queue s.processed s.activeStores
  { s with queue := r.1, processed := r.2.1, activeStores := r.2.2 }

/-- `spider_idle` (spider lines 56–68): if `active_stores < parallel_stores`
and the queue is non-empty, run a scheduling pass (after a jitter sleep,
which has no effect on this state). -/
def spiderIdle (s : SpiderState) : SpiderState :=
  if s.activeStores < s.parallelStores ∧ s.queue ≠ [] then scheduleNextStores s else s

/-- Events that mutate the scheduler state:
* `idle` — the `spider_idle` signal fired (lines 56–68);
* `storeError sid` — `handle_store_error` (lines 139–148): decrement
  `active_stores`, then run a scheduling pass;
* `storeStartOk sid n` — `parse_store_page` success branch (lines 154–163):
  initialize `store_category_status[sid] = n` (`n = len(self.categories)`);
* `storeStartBad sid` — `parse_store_page` failure branch (lines 164–169):
  decrement `active_stores`;
* `catDone sid o` — a category drain report for `sid`
  (`parse_category` / `handle_category_error`). -/
inductive SpiderEvent where
  | idle
  | storeError (sid : String)
  | storeStartOk (sid : String) (n : ℤ)
  | storeStartBad (sid : String)
  | catDone (sid : String) (o : DrainOutcome)

/-- One scheduler step, dispatching a `SpiderEvent` to the code path that
handles it. -/
def spiderStep (s : SpiderState) : SpiderEvent → SpiderState
  | .idle => spiderIdle s
  | .storeError _ => scheduleNextStores { s with activeStores := s.activeStores - 1 }
  | .storeStartOk sid n =>
    { s with status := fun x => if x = sid then some n else s.status x }
  | .storeStartBad _ => { s with activeStores := s.activeStores - 1 }
  | .catDone sid o => applyDrain s sid o

/-! ## Pagination protocol (`parse_category` / `handle_category_error`) -/

/-- Outcome of fetching one category page:
* `success n` — `parse_category` ran with `n` extracted products;
* `noNextData` — `parse_category` found no `__NEXT_DATA__` (line 217);
* `fetchFailure` — the request errored out into `handle_category_error`. -/
inductive PageResult where
  | success (n : ℕ)
  | noNextData
  | fetchFailure
deriving DecidableEq, Repr

/-- What the spider does with one fetched page (`parse_category`
lines 209–249, `handle_category_error` lines 198–207):
request the next page when `products and len(products) >= 40`
(non-empty and at least 40 items, which is just `40 ≤ n`), and otherwise
report the category drained. -/
inductive CatAction where
  | nextPage
  | drain
deriving DecidableEq, Repr

/-- Dispatch of one page result, following `parse_category`:
`if products and len(products) >= 40` (line 244) requests the next page,
every other path calls `category_complete_for_store`. -/
def pageAction : PageResult → CatAction
  | .success n => if 40 ≤ n then .nextPage else .drain
  | .noNextData => .drain
  | .fetchFailure => .drain

/-- Run of one (store, category) pagination given the successive page
results, starting from the page-1 task issued at admission.  Returns
`(page-fetch tasks issued, drain reports sent)`; results after the first
terminal page are never fetched and are ignored. -/
def runCategory : List PageResult → ℕ × ℕ
  | [] => (0, 0)
  | r :: rest =>
    match pageAction r with
    | .nextPage => ((runCategory rest).1 + 1, (runCategory rest).2)
    | .drain => (1, 1)

/-! ## `EnhancedProxyManager` (`src/helpers/enhanced_proxy_manager.py`)

Per-proxy statistics dict (`proxy_stats`, a `defaultdict`, lines 33–45),
proxy categorisation lists, and the `walmart_blocked_ips` set. -/

/-- Request context as built by the enhanced middleware
(`enhanced_middleware.py` lines 508–513) and consumed by the proxy
managers: URL type, retry count and the previously used proxy. -/
structure ReqCtx where
  urlType : String
  retryCount : ℕ
  lastProxy : Option String
deriving DecidableEq, Repr

/-- One `proxy_stats` entry (enhanced manager lines 33–45). -/
structure EStats where
  requests : ℕ
  successes : ℕ
  failures : ℕ
  botDetections : ℕ
  lastUsed : Option ℤ
  lastSuccess : Option ℤ
  lastFailure : Option ℤ
  avgResponseTime : ℚ
  cooldownUntil : Option ℤ
  consecutiveFailures : ℕ
  walmartScore : ℚ
deriving DecidableEq, Repr

/-- The `defaultdict` default entry (enhanced manager lines 33–45). -/
def EStats.default : EStats :=
  { requests := 0, successes := 0, failures := 0, botDetections := 0
    lastUsed := none, lastSuccess := none, lastFailure := none
    avgResponseTime := 0, cooldownUntil := none, consecutiveFailures := 0
    walmartScore := 0 }

/-- Static metadata of one categorised proxy (`proxy_info` as built by
`_categorize_proxy`): URL, location country code and latency. -/
structure EProxyInfo where
  proxy : String
  countryCode : Option String
  latencyMs : Option ℚ
deriving DecidableEq, Repr

/-- `EnhancedProxyManager` mutable state: the three categorised pools,
the per-proxy statistics (total function with `EStats.default` at
untouched keys) and `walmart_blocked_ips`. -/
structure EState where
  residential : List EProxyInfo
  mobile : List EProxyInfo
  datacenter : List EProxyInfo
  stats : String → EStats
  blocked : List String

/-- Pointwise update of the stats map at one key. -/
def updStats (st : String → EStats) (p : String) (v : EStats) : String → EStats :=
  fun x => if x = p then v else st x

/-- `stats["cooldown_until"] and current_time < stats["cooldown_until"]`
(Python truthiness on the optional timestamp). -/
def cooldownActive (cu : Option ℤ) (now : ℤ) : Bool :=
  match cu with
  | none => false
  | some t => now < t

/-- Dynamic score of one proxy inside `get_proxy` (enhanced manager
lines 190–217): pool base score plus `walmart_score`, success-rate and
detection-rate terms when `requests > 0`, a recent-success boost, a US
bonus and a low-latency bonus. -/
def eScore (st : EStats) (info : EProxyInfo) (base : ℚ) (now : ℤ) : ℚ :=
  let s0 : ℚ := base + st.walmartScore
  let s1 : ℚ :=
    if 0 < st.requests then
      let sr : ℚ := (st.successes : ℚ) / (st.requests : ℚ)
      let s := s0 + sr * 50
      if 0 < st.botDetections then
        s - ((st.botDetections : ℚ) / (st.requests : ℚ)) * 100
      else s
    else s0
  let s2 : ℚ :=
    match st.lastSuccess with
    | none => s1
    | some ls =>
      let minutes : ℚ := ((now - ls : ℤ) : ℚ) / 60
      if minutes < 5 then s1 + 20 else if minutes < 30 then s1 + 10 else s1
  let s3 : ℚ := if info.countryCode = some "US" then s2 + 15 else s2
  match info.latencyMs with
  | some l => if l < 1000 then s3 + 10 else s3
  | none => s3

/-- The filter over one pool inside `get_proxy` (enhanced manager
lines 173–219): skip proxies in `walmart_blocked_ips`, proxies whose
cooldown is still active, and proxies with `consecutive_failures >= 3`;
keep the rest with their score. -/
def eFilterPool (s : EState) (now : ℤ) (pool : List EProxyInfo) (base : ℚ) :
    List (String × ℚ) :=
  pool.filterMap fun info =>
    let p := info.proxy
    let st := s.stats p
    if p ∈ s.blocked then none
    else if cooldownActive st.cooldownUntil now then none
    else if 3 ≤ st.consecutiveFailures then none
    else some (p, eScore st info base now)

/-- `available_proxies` as accumulated over the three pools with base
scores 100 / 80 / 30 (enhanced manager lines 167–219). -/
def eAvailable (s : EState) (now : ℤ) : List (String × ℚ) :=
  eFilterPool s now s.residential 100 ++ eFilterPool s now s.mobile 80 ++
    eFilterPool s now s.datacenter 30

/-- Stable insertion of one scored proxy into a descending-sorted list,
used to model Python's stable `list.sort(key=..., reverse=True)`. -/
def insertDesc (x : String × ℚ) : List (String × ℚ) → List (String × ℚ)
  | [] => [x]
  | y :: ys => if y.2 ≤ x.2 then x :: y :: ys else y :: insertDesc x ys

/-- Stable descending sort by score (`available_proxies.sort(key=lambda x:
x[1], reverse=True)`, enhanced manager line 231). -/
def sortDesc : List (String × ℚ) → List (String × ℚ)
  | [] => []
  | x :: xs => insertDesc x (sortDesc xs)

/-- Randomness consumed by one `get_proxy` call: the `random.random() < 0.2`
coin and the `random.choice` index. -/
structure SelOracle where
  coin : Bool
  pick : ℕ
deriving Repr

/-- `random.choice(l)` for a non-empty list, with the oracle index reduced
modulo the length. -/
def listChoice (l : List (String × ℚ)) (i : ℕ) : Option (String × ℚ) :=
  l.get? (i % l.length)

/-- The emergency reset inside `get_proxy` (enhanced manager lines 221–226):
clear `cooldown_until` and `consecutive_failures` on every stats entry.
(The Python loop runs over the keys of `proxy_stats`; every proxy of the
pools has an entry by then, and default entries already carry
`cooldown_until = None` and `consecutive_failures = 0`, so resetting every
key of the total map is the same function.) -/
def eResetAll (s : EState) : EState :=
  { s with stats := fun p => { s.stats p with cooldownUntil := none, consecutiveFailures := 0 } }

/-- `EnhancedProxyManager.get_proxy` (lines 158–251), with explicit `fuel`
bounding the recursion of the emergency-reset path (`return
self.get_proxy(request_context)`, line 228; the Python recursion is
unbounded).  The `request_context` argument is accepted and passed to the
recursive call but read nowhere else in the body.  Returns the selected
proxy URL (or `none` when the fuel runs out, modelling a non-returning
call) and the updated state; on selection, `last_used` and `requests` of
the chosen proxy are updated. -/
def getProxyE : ℕ → EState → ℤ → Option ReqCtx → SelOracle → Option String × EState
  | 0, s, _, _, _ => (none, s)
  | fuel + 1, s, now, ctx, o =>
    let avail := eAvailable s now
    if avail.isEmpty then
      getProxyE fuel (eResetAll s) now ctx o
    else
      let sorted := sortDesc avail
      let sel :=
        if o.coin ∧ 3 < avail.length then listChoice (sorted.take 3) o.pick
        else sorted.head?
      match sel with
      | none => (none, s)
      | some (p, _) =>
        let st := s.stats p
        (some p, { s with stats := updStats s.stats p { st with lastUsed := some now, requests := st.requests + 1 } })

/-- `EnhancedProxyManager.record_success` (lines 253–274). -/
def recordSuccessE (s : EState) (p : String) (now : ℤ) (rt : Option ℚ) : EState :=
  let st := s.stats p
  let st := { st with
    successes := st.successes + 1
    lastSuccess := some now
    consecutiveFailures := 0
    cooldownUntil := none }
  let st :=
    match rt with
    | some r =>
      if r ≠ 0 then
        if st.avgResponseTime = 0 then { st with avgResponseTime := r }
        else { st with avgResponseTime := (st.avgResponseTime + r) / 2 }
      else st
    | none => st
  let st := { st with walmartScore := min 100 (st.walmartScore + 5) }
  { s with stats := updStats s.stats p st }

/-- `EnhancedProxyManager.record_failure` (lines 276–311): bump failure
counters; on bot detection, bump `bot_detections`, cut the score, apply a
flat 30-minute cooldown and add the proxy to `walmart_blocked_ips` once
`bot_detections >= 3`; otherwise a 1 / 5 / 15 minute cooldown escalating
with `consecutive_failures`. -/
def recordFailureE (s : EState) (p : String) (now : ℤ) (isBot : Bool) : EState :=
  let st := s.stats p
  let st := { st with
    failures := st.failures + 1
    lastFailure := some now
    consecutiveFailures := st.consecutiveFailures + 1 }
  if isBot then
    let st := { st with
      botDetections := st.botDetections + 1
      walmartScore := max (-50) (st.walmartScore - 20)
      cooldownUntil := some (now + 60 * 30) }
    let blocked := if 3 ≤ st.botDetections then p :: s.blocked else s.blocked
    { s with stats := updStats s.stats p st, blocked := blocked }
  else
    let st := { st with walmartScore := max (-20) (st.walmartScore - 5) }
    let st :=
      if 3 ≤ st.consecutiveFailures then { st with cooldownUntil := some (now + 60 * 15) }
      else if 2 ≤ st.consecutiveFailures then { st with cooldownUntil := some (now + 60 * 5) }
      else { st with cooldownUntil := some (now + 60 * 1) }
    { s with stats := updStats s.stats p st }

/-- Operations a client can subsequently apply to an `EnhancedProxyManager`
(its public mutating interface). -/
inductive EOp where
  | get (fuel : ℕ) (now : ℤ) (ctx : Option ReqCtx) (o : SelOracle)
  | success (p : String) (now : ℤ) (rt : Option ℚ)
  | failure (p : String) (now : ℤ) (isBot : Bool)

/-- Execute one operation, returning the new state and the proxy a
`get_proxy` call handed out (`none` for the recording operations). -/
def execE (s : EState) : EOp → EState × Option String
  | .get fuel now ctx o => let r := getProxyE fuel s now ctx o; (r.2, r.1)
  | .success p now rt => (recordSuccessE s p now rt, none)
  | .failure p now isBot => (recordFailureE s p now isBot, none)

/-- Execute a list of operations from a state. -/
def runE (s : EState) : List EOp → EState
  | [] => s
  | op :: ops => runE (execE s op).1 ops

/-- All proxies handed out along a list of operations. -/
def outputsE (s : EState) : List EOp → List (Option String)
  | [] => []
  | op :: ops => (execE s op).2 :: outputsE (execE s op).1 ops

/-! ## `AdaptiveProxyManager` (`src/helpers/adaptive_proxy_manager.py`) -/

/-- One `proxy_stats` entry of the adaptive manager (lines 30–42).
`base_score` is present only for proxies loaded with a validation score
(line 79), hence an `Option`; `session_data` and `success_patterns` are
carried along untouched by the operations modelled here. -/
structure AStats where
  requests : ℕ
  successes : ℕ
  failures : ℕ
  botDetections : ℕ
  lastUsed : Option ℤ
  lastSuccess : Option ℤ
  lastFailure : Option ℤ
  avgResponseTime : ℚ
  cooldownUntil : Option ℤ
  baseScore : Option ℚ
  sessionData : List (String × String)
  successPatterns : List String
deriving DecidableEq, Repr

/-- The `defaultdict` default entry of the adaptive manager. -/
def AStats.default : AStats :=
  { requests := 0, successes := 0, failures := 0, botDetections := 0
    lastUsed := none, lastSuccess := none, lastFailure := none
    avgResponseTime := 0, cooldownUntil := none, baseScore := none
    sessionData := [], successPatterns := [] }

/-- `proxy_details` entry fields the manager reads: validation score,
location country code, latency. -/
structure ADetails where
  walmartScore : Option ℚ
  countryCode : Option String
  latencyMs : Option ℚ
deriving DecidableEq, Repr

/-- `global_patterns` (adaptive manager lines 52–57). -/
structure GlobalPatterns where
  userAgents : String → ℕ
  times : ℤ → ℕ
  intervals : List ℚ
  sessionLengths : List ℚ

/-- `AdaptiveProxyManager` mutable state. -/
structure AState where
  proxies : List String
  details : String → ADetails
  stats : String → AStats
  subnetUsage : String → ℕ
  lastSubnetReset : ℤ
  patterns : GlobalPatterns

/-- Pointwise update of the adaptive stats map at one key. -/
def updStatsA (st : String → AStats) (p : String) (v : AStats) : String → AStats :=
  fun x => if x = p then v else st x

/-- `_get_subnet` (adaptive manager lines 107–114): strip the scheme and
port, keep the first three dot-separated components; on too few
components, `"unknown"`. -/
def getSubnet (proxy : String) : String :=
  let ip := (((proxy.splitOn "://").getLastD "").splitOn ":").headD ""
  match ip.splitOn "." with
  | a :: b :: c :: _ => a ++ "." ++ b ++ "." ++ c
  | _ => "unknown"

/-- Python's substring test `needle in hay` for a non-empty needle. -/
def strContainsSub (hay needle : String) : Bool :=
  2 ≤ (hay.splitOn needle).length

/-- `_calculate_dynamic_score` (adaptive manager lines 116–154). -/
def dynScoreA (s : AState) (p : String) (now : ℤ) : ℚ :=
  let st := s.stats p
  let d := s.details p
  let score : ℚ := st.baseScore.getD (d.walmartScore.getD 0)
  let score :=
    if 0 < st.requests then
      let score := score + ((st.successes : ℚ) / (st.requests : ℚ)) * 10
      if 0 < st.botDetections then
        score - ((st.botDetections : ℚ) / (st.requests : ℚ)) * 20
      else score
    else score
  let score :=
    match st.lastSuccess with
    | none => score
    | some ls =>
      let hours : ℚ := ((now - ls : ℤ) : ℚ) / 3600
      if hours < 1 then score + 5 else if hours < 6 then score + 2 else score
  let score := if d.countryCode = some "US" then score + 3 else score
  let score :=
    match d.latencyMs with
    | some l =>
      if l ≠ 0 then
        if 2000 < l then score - 3 else if l < 500 then score + 2 else score
      else score
    | none => score
  max 0 score

/-- The eligibility-and-score filter of the adaptive `get_proxy`
(lines 173–207): skip proxies whose cooldown is active, proxies used more
recently than the adaptive rate-limit interval, and — on a retry — the
context's `last_proxy`; keep the rest with dynamic score minus the subnet
penalty plus context bonuses. -/
def aFilter (s : AState) (now : ℤ) (ctx : Option ReqCtx) : List (String × ℚ) :=
  s.proxies.filterMap fun p =>
    let st := s.stats p
    if cooldownActive st.cooldownUntil now then none
    else
      let recent :=
        match st.lastUsed with
        | none => false
        | some u =>
          let minInterval : ℤ := if st.failures < st.successes then 2 else 10
          now - u < minInterval
      if recent then none
      else
        let subnetPenalty : ℚ := (s.subnetUsage (getSubnet p) : ℚ) * 2
        let score := dynScoreA s p now - subnetPenalty
        match ctx with
        | none => some (p, score)
        | some c =>
          let score :=
            if strContainsSub c.urlType "product" ∧ (s.details p).countryCode = some "US"
            then score + 5 else score
          if 0 < c.retryCount ∧ c.lastProxy = some p then none
          else some (p, score)

/-- The hourly subnet-usage reset at the top of the adaptive `get_proxy`
(lines 169–171). -/
def aSubnetReset (s : AState) (now : ℤ) : AState :=
  if 3600 < now - s.lastSubnetReset then
    { s with subnetUsage := fun _ => 0, lastSubnetReset := now }
  else s

/-- The emergency path of the adaptive `get_proxy` (lines 209–213): clear
`cooldown_until` on every proxy of the list. -/
def aClearCooldowns (s : AState) : AState :=
  { s with stats := fun p =>
      if p ∈ s.proxies then { s.stats p with cooldownUntil := none } else s.stats p }

/-- `random.choice` over the raw proxy list. -/
def listChoiceS (l : List String) (i : ℕ) : Option String :=
  l.get? (i % l.length)

/-- `AdaptiveProxyManager.get_proxy` (lines 156–229).  When the filtered
list is empty it clears all cooldowns and immediately returns a uniformly
random proxy from the full list (`None` when the list itself is empty),
without re-running the scoring filter; otherwise it sorts by score
(stable, descending), optionally randomises among the top five, and
updates `last_used`, `requests` and the subnet-usage counter of the
selected proxy. -/
def getProxyA (s0 : AState) (now : ℤ) (ctx : Option ReqCtx) (o : SelOracle) :
    Option String × AState :=
  let s := aSubnetReset s0 now
  let avail := aFilter s now ctx
  if avail.isEmpty then
    (if s.proxies.isEmpty then none else listChoiceS s.proxies o.pick, aClearCooldowns s)
  else
    let sorted := sortDesc avail
    let sel :=
      if o.coin ∧ 5 < avail.length then listChoice (sorted.take 5) o.pick
      else sorted.head?
    match sel with
    | none => (none, s)
    | some (p, _) =>
      let st := s.stats p
      let s := { s with
        stats := updStatsA s.stats p { st with lastUsed := some now, requests := st.requests + 1 }
        subnetUsage := fun x =>
          if x = getSubnet p then s.subnetUsage x + 1 else s.subnetUsage x }
      (some p, s)

/-- `AdaptiveProxyManager.record_success` (lines 231–262): bump success
statistics, clear the cooldown, update the running average response time
(on a truthy response time), and feed the global success-pattern
trackers. -/
def recordSuccessA (s : AState) (p : String) (now : ℤ) (rt : Option ℚ)
    (ua : Option String) : AState :=
  let st := s.stats p
  let st := { st with successes := st.successes + 1, lastSuccess := some now,
                      cooldownUntil := none }
  let st :=
    match rt with
    | some r =>
      if r ≠ 0 then
        if st.avgResponseTime = 0 then { st with avgResponseTime := r }
        else { st with avgResponseTime := (st.avgResponseTime + r) / 2 }
      else st
    | none => st
  let pat := s.patterns
  let pat :=
    match ua with
    | some u =>
      if u ≠ "" then
        { pat with userAgents := fun x => if x = u then pat.userAgents x + 1 else pat.userAgents x }
      else pat
    | none => pat
  let hour := (now / 3600) % 24
  let pat := { pat with times := fun h => if h = hour then pat.times h + 1 else pat.times h }
  let pat :=
    match st.lastUsed with
    | some u =>
      let l := pat.intervals ++ [((now - u : ℤ) : ℚ)]
      { pat with intervals := if 1000 < l.length then l.drop (l.length - 1000) else l }
    | none => pat
  { s with stats := updStatsA s.stats p st, patterns := pat }

/-- `AdaptiveProxyManager.record_failure` (lines 264–293): bump failure
statistics and apply an adaptive cooldown — on bot detection
`min(60, 10 * bot_detections²)` minutes, otherwise 30 / 10 / 2 minutes by
overall failure rate. -/
def recordFailureA (s : AState) (p : String) (now : ℤ) (botDetected : Bool) : AState :=
  let st := s.stats p
  let st := { st with failures := st.failures + 1, lastFailure := some now }
  let st :=
    if botDetected then { st with botDetections := st.botDetections + 1 } else st
  let failureRate : ℚ := (st.failures : ℚ) / (max st.requests 1 : ℕ)
  let cooldownMinutes : ℕ :=
    if botDetected then min 60 (10 * st.botDetections ^ 2)
    else if (4 : ℚ) / 5 < failureRate then 30
    else if (1 : ℚ) / 2 < failureRate then 10
    else 2
  let st := { st with cooldownUntil := some (now + 60 * (cooldownMinutes : ℤ)) }
  { s with stats := updStatsA s.stats p st }

/-! ## Browser session pools

`src/hybrid_browser_middleware.py` (`HybridBrowserMiddleware`) and
`src/enhanced_middleware.py` (`EnhancedProxyBrowserMiddleware`) both keep
their sessions in a `queue.Queue(maxsize=pool_size)`; a request checks a
session out with `get` and a completion callback puts it back or replaces
it. -/

/-- Classified outcome of one browser request, as seen by the release
callbacks: a successful `HtmlResponse`, a `BotDetectionError`, or any
other failure. -/
inductive FetchResult where
  | success
  | botDetected
  | otherFailure
deriving DecidableEq, Repr

/-- A pooled browser session of the hybrid middleware (`browser_info`,
hybrid middleware lines 154–158): an identity, the proxy it is durably
bound to, and the warm-up flag. -/
structure HSession where
  sid : ℕ
  proxy : String
  warmedUp : Bool
deriving DecidableEq, Repr

/-- `HybridBrowserMiddleware._return_browser` (lines 463–466): the browser
is put back into the pool unconditionally — the result of the request,
bot detection included, is ignored. -/
def hybridReturnBrowser (_result : FetchResult) (pool : List HSession) (b : HSession) :
    List HSession :=
  pool ++ [b]

/-- `self.browser_pool.get(...)` (hybrid middleware line 244): hand out the
oldest queued session. -/
def hybridAcquire (pool : List HSession) : Option (HSession × List HSession) :=
  match pool with
  | [] => none
  | b :: rest => some (b, rest)

/-- A pooled browser session of the enhanced middleware (`browser_info`,
enhanced middleware lines 311–321, restricted to the fields the release
path reads). -/
structure EBrowser where
  sid : ℕ
  proxy : String
  warmedUp : Bool
  requestCount : ℕ
deriving DecidableEq, Repr

/-- `EnhancedProxyBrowserMiddleware._release_enhanced_browser`
(lines 796–836).  On a failure carrying `BotDetectionError` the session is
first "recovered" (cookies cleared, `warmed_up` and `request_count`
reset), but the following `request_count > 100 or BotDetectionError` test
is then necessarily true, so the driver is quit and an asynchronous
replacement is spawned — the session is not returned to the pool.  A
non-bot failure with `request_count <= 100` and every success returns the
session to the pool.  The second component counts replacement creations
spawned. -/
def enhancedReleaseBrowser (result : FetchResult) (pool : List EBrowser) (b : EBrowser) :
    List EBrowser × ℕ :=
  match result with
  | .success => (pool ++ [b], 0)
  | .botDetected =>
    let _recovered := { b with warmedUp := false, requestCount := 0 }
    (pool, 1)
  | .otherFailure =>
    if 100 < b.requestCount then (pool, 1) else (pool ++ [b], 0)

/-- `self.browser_pool.get(timeout=300)` (enhanced middleware line 516). -/
def enhancedAcquire (pool : List EBrowser) : Option (EBrowser × List EBrowser) :=
  match pool with
  | [] => none
  | b :: rest => some (b, rest)

/-- The bot-detection branch of `_execute_enhanced_request` as it
actually executes (enhanced middleware lines 615–618 and 645–650).
Line 617 calls `self.proxy_manager.record_failure(proxy,
bot_detected=True)`, but `self.proxy_manager` is an
`EnhancedProxyManager` (line 223) whose signature is
`record_failure(self, proxy, is_bot_detection=False)` — `bot_detected`
is an unexpected keyword argument, so the call raises `TypeError` before
mutating any statistics, and the `raise BotDetectionError` on line 618 is
never reached.  The `except BotDetectionError` clause therefore does not
fire; the generic `except Exception` handler (lines 647–650) records a
plain non-bot failure via `record_failure(proxy)` and re-raises the
`TypeError`.  The release callback consequently sees a failure that is
not a `BotDetectionError`.  This definition composes that manager effect
with `_release_enhanced_browser` on the propagated non-bot failure:
first component the manager state after the flow, second component the
`(pool, replacements spawned)` result of the release. -/
def enhancedBotDetectionFlow (s : EState) (pool : List EBrowser) (b : EBrowser)
    (now : ℤ) : EState × (List EBrowser × ℕ) :=
  (recordFailureE s b.proxy now false, enhancedReleaseBrowser .otherFailure pool b)

/-! ### Session-count state machine (pool-size bound)

Counting the sessions in each lifecycle stage.  `creating` covers the
creation worker threads in flight (`spider_opened` spawns one per slot /
per proxy: hybrid lines 95–112, enhanced lines 270–289; replacement
spawns: enhanced lines 822–828), `ready` the sessions sitting in the
`Queue`, `inUse` the checked-out sessions. -/

structure PoolCounts where
  creating : ℕ
  ready : ℕ
  inUse : ℕ
deriving DecidableEq, Repr

/-- Events that move sessions between lifecycle stages:
* `createOk` — a creation worker finished and `put` its session
  (hybrid line 159, enhanced line 323);
* `createFail` — a creation worker failed and put nothing
  (hybrid lines 162–163, enhanced lines 325–326);
* `acquire` — `process_request` checked a session out of the queue;
* `releaseReady` — a release path returned the session to the queue;
* `releaseReplace` — a release path destroyed the session and spawned one
  asynchronous replacement creation (enhanced lines 815–828). -/
inductive PoolEvent where
  | createOk
  | createFail
  | acquire
  | releaseReady
  | releaseReplace
deriving DecidableEq, Repr

/-- One transition of the session-count machine.  Guards express that the
corresponding code path can only run when a session is in the source
stage (a worker thread exists, the queue `get` returned, the callback
holds a checked-out session). -/
def poolStep (s : PoolCounts) : PoolEvent → PoolCounts
  | .createOk =>
    if 0 < s.creating then
      { creating := s.creating - 1, ready := s.ready + 1, inUse := s.inUse }
    else s
  | .createFail =>
    if 0 < s.creating then { s with creating := s.creating - 1 } else s
  | .acquire =>
    if 0 < s.ready then { s with ready := s.ready - 1, inUse := s.inUse + 1 } else s
  | .releaseReady =>
    if 0 < s.inUse then { s with inUse := s.inUse - 1, ready := s.ready + 1 } else s
  | .releaseReplace =>
    if 0 < s.inUse then { s with inUse := s.inUse - 1, creating := s.creating + 1 } else s

/-- Start-up state: `spider_opened` spawns exactly `size` creation threads
against an empty queue (hybrid lines 95–112, enhanced lines 270–289). -/
def initPool (size : ℕ) : PoolCounts :=
  { creating := size, ready := 0, inUse := 0 }

/-- Run the session-count machine over an event trace. -/
def runPool (s : PoolCounts) (evs : List PoolEvent) : PoolCounts :=
  evs.foldl poolStep s

/-- Number of sessions concurrently alive in any lifecycle stage. -/
def PoolCounts.total (s : PoolCounts) : ℕ :=
  s.creating + s.ready + s.inUse

/-! ## Concrete demonstration states

Small concrete manager / scheduler states used to instantiate the
theorems below on explicit inputs. -/

/-- A fresh one-proxy enhanced-manager state: one residential US proxy
with low latency, default statistics, nothing blocked. -/
def eDemoState : EState :=
  { residential := [{ proxy := "p1", countryCode := some "US", latencyMs := some 100 }]
    mobile := [], datacenter := []
    stats := fun _ => EStats.default
    blocked := [] }

/-- The same enhanced-manager state with two bot detections already
recorded against the proxy. -/
def eDemoState2 : EState :=
  { eDemoState with stats := fun _ => { EStats.default with botDetections := 2 } }

/-- Empty `global_patterns`. -/
def demoPatterns : GlobalPatterns :=
  { userAgents := fun _ => 0, times := fun _ => 0, intervals := [], sessionLengths := [] }

/-- A one-proxy adaptive-manager state whose proxy was used at time 0 and
has no successes yet (so the adaptive rate limit keeps it ineligible for
10 seconds). -/
def aDemoState : AState :=
  { proxies := ["p1"]
    details := fun _ => { walmartScore := none, countryCode := none, latencyMs := none }
    stats := fun _ => { AStats.default with lastUsed := some 0 }
    subnetUsage := fun _ => 0
    lastSubnetReset := 0
    patterns := demoPatterns }

/-- A two-proxy adaptive-manager state with fresh statistics. -/
def aDemoState2 : AState :=
  { proxies := ["a", "b"]
    details := fun _ => { walmartScore := none, countryCode := none, latencyMs := none }
    stats := fun _ => AStats.default
    subnetUsage := fun _ => 0
    lastSubnetReset := 0
    patterns := demoPatterns }

/-- A scheduler state with one active store (two pending categories) and
two fresh stores queued under a ceiling of 2. -/
def spiderDemoState : SpiderState :=
  { activeStores := 1
    parallelStores := 2
    queue := ["s2", "s3"]
    processed := ["s1"]
    status := fun x => if x = "s1" then some 2 else none }

/-- A pooled hybrid-middleware session bound to one proxy. -/
def hDemoSession : HSession :=
  { sid := 0, proxy := "http://proxyA:3128", warmedUp := true }

/-! # Theorems -/

/-! ## C8 — pagination protocol -/

/-- Helper: a run containing a draining page result reports the category
drained exactly once. -/
theorem runCategory_drain_once (rs : List PageResult)
    (h : ∃ r ∈ rs, pageAction r = .drain) : (runCategory rs).2 = 1 := by
  induction rs with
  | nil => simp at h
  | cons r rest ih =>
    obtain ⟨x, hx, hdx⟩ := h
    cases hpa : pageAction r with
    | nextPage =>
      have hxr : x ∈ rest := by
        rcases List.mem_cons.mp hx with h1 | h1
        · subst h1; rw [hpa] at hdx; exact absurd hdx (by simp)
        · exact h1
      simp only [runCategory, hpa]
      exact ih ⟨x, hxr, hdx⟩
    | drain => simp [runCategory, hpa]

/-- C8: for every (store, category) pair, a next-page task is issued iff
the page's extracted result count reaches the full-page threshold of 40
(`parse_category` line 244: `if products and len(products) >= 40`); a
short page, a page without `__NEXT_DATA__` and a fetch failure all end
pagination, and every run whose page results contain a terminal page
reports the category drained (decrements the store's pending counter)
exactly once; in particular the page-count sequence `[40, 40, 17]` issues
exactly 3 page-fetch tasks and drains the category after the third page. -/
theorem pagination_protocol :
    (∀ (n : ℕ) (rs : List PageResult), 40 ≤ n →
      runCategory (.success n :: rs) = ((runCategory rs).1 + 1, (runCategory rs).2)) ∧
    (∀ (n : ℕ) (rs : List PageResult), n < 40 →
      runCategory (.success n :: rs) = (1, 1)) ∧
    (∀ rs : List PageResult, runCategory (.fetchFailure :: rs) = (1, 1)) ∧
    (∀ rs : List PageResult, (∃ r ∈ rs, pageAction r = .drain) → (runCategory rs).2 = 1) ∧
    runCategory [.success 40, .success 40, .success 17] = (3, 1) := by
  refine ⟨?_, ?_, ?_, runCategory_drain_once, by decide⟩
  · intro n rs hn
    simp [runCategory, pageAction, hn]
  · intro n rs hn
    simp [runCategory, pageAction, Nat.not_le.mpr hn]
  · intro rs
    simp [runCategory, pageAction]

/-- Witness for `pagination_protocol` at concrete inputs. -/
theorem pagination_protocol_witness :
    runCategory [.success 40, .success 17] =
      ((runCategory [.success 17]).1 + 1, (runCategory [.success 17]).2) ∧
    runCategory [.success 17] = (1, 1) ∧
    runCategory [.fetchFailure] = (1, 1) ∧
    (runCategory [.success 40, .fetchFailure]).2 = 1 :=
  ⟨pagination_protocol.1 40 [.success 17] (by decide),
   pagination_protocol.2.1 17 [] (by decide),
   pagination_protocol.2.2.1 [],
   pagination_protocol.2.2.2.1 [.success 40, .fetchFailure]
     ⟨.fetchFailure, by decide, by decide⟩⟩

/-! ## C4 — session-pool bound -/

/-- Helper: no pool event increases the number of live sessions. -/
theorem poolStep_total_le (s : PoolCounts) (e : PoolEvent) :
    (poolStep s e).total ≤ s.total := by
  cases e <;> simp only [poolStep] <;> split <;>
    simp [PoolCounts.total] <;> omega

/-- Helper: running a trace never increases the number of live sessions. -/
theorem runPool_total_le (evs : List PoolEvent) (s : PoolCounts) :
    (runPool s evs).total ≤ s.total := by
  induction evs generalizing s with
  | nil => exact le_refl _
  | cons e rest ih =>
    exact le_trans (ih (poolStep s e)) (poolStep_total_le s e)

/-- C4: from the start-up state (`spider_opened` spawns exactly `size`
creation workers against an empty queue), every reachable pool state has
at most `size` sessions alive across Creating, Ready and InUse — in
particular the destroy-and-replace release path (`releaseReplace`, the
enhanced middleware's `_release_enhanced_browser` bot-detection branch)
preserves the bound, since it trades one InUse session for one Creating
session. -/
theorem session_pool_bound (size : ℕ) (evs : List PoolEvent) :
    (runPool (initPool size) evs).total ≤ size := by
  have h := runPool_total_le evs (initPool size)
  simpa [initPool, PoolCounts.total] using h

/-! ## C10 — frame property of the statistics updates -/

/-- C10: `record_success` and `record_failure` of both managers mutate
only the statistics entry of the proxy they are called with; the entry of
every other proxy is unchanged. -/
theorem record_ops_frame (p q : String) (h : q ≠ p) (se : EState) (sa : AState)
    (now : ℤ) (rt : Option ℚ) (ua : Option String) (isBot : Bool) :
    (recordSuccessE se p now rt).stats q = se.stats q ∧
    (recordFailureE se p now isBot).stats q = se.stats q ∧
    (recordSuccessA sa p now rt ua).stats q = sa.stats q ∧
    (recordFailureA sa p now isBot).stats q = sa.stats q := by
  refine ⟨?_, ?_, ?_, ?_⟩
  · simp [recordSuccessE, updStats, h]
  · cases isBot <;> simp [recordFailureE, updStats, h]
  · simp [recordSuccessA, updStatsA, h]
  · simp [recordFailureA, updStatsA, h]

/-- Witness for `record_ops_frame`: updating proxy `"p1"` leaves the
entry of `"p2"` untouched in both managers. -/
theorem record_ops_frame_witness :
    ("p2" : String) ≠ "p1" ∧
    (recordSuccessE eDemoState "p1" 0 (some 1)).stats "p2" = eDemoState.stats "p2" ∧
    (recordFailureE eDemoState "p1" 0 true).stats "p2" = eDemoState.stats "p2" ∧
    (recordSuccessA aDemoState "p1" 0 (some 1) (some "ua")).stats "p2" =
      aDemoState.stats "p2" ∧
    (recordFailureA aDemoState "p1" 0 true).stats "p2" = aDemoState.stats "p2" := by
  have h := record_ops_frame "p1" "p2" (by decide) eDemoState aDemoState 0 (some 1)
    (some "ua") true
  exact ⟨by decide, h.1, h.2.1, h.2.2.1, h.2.2.2⟩

/-! ## C1 — per-store completion accounting -/

/-- Helper: a drain report while more than one category is pending only
decrements the counter; the store stays tracked and `active_stores` is
untouched. -/
theorem catComplete_mid (s : SpiderState) (sid : String) (n : ℤ)
    (hst : s.status sid = some n) (h1 : 1 < n) :
    (categoryCompleteForStore s sid).status sid = some (n - 1) ∧
    (categoryCompleteForStore s sid).activeStores = s.activeStores := by
  have hne : ¬ n - 1 ≤ 0 := by omega
  simp [categoryCompleteForStore, hst, hne]

/-- Helper: the drain report that takes the counter to 0 removes the
store from tracking and decrements `active_stores` (the `> 0` guard is
satisfied). -/
theorem catComplete_last (s : SpiderState) (sid : String) (n : ℤ)
    (hst : s.status sid = some n) (hn : n ≤ 1) (ha : 0 < s.activeStores) :
    (categoryCompleteForStore s sid).status sid = none ∧
    (categoryCompleteForStore s sid).activeStores = s.activeStores - 1 := by
  have hle : n - 1 ≤ 0 := by omega
  simp [categoryCompleteForStore, hst, hle, ha]

/-- C1: a store admitted with `N ≥ 1` categories (counter initialized to
`N` by `parse_store_page`) that receives exactly `N` drain reports — any
mixture of last-page successes and fetch failures, in any order — holds
counter value `N - k` after the first `k < N` reports (so the counter is
never negative and never 0 while the store is tracked, and
`active_stores` is untouched before the last report), and the `N`-th
report is the single instant at which the counter reaches 0: the store is
removed from tracking and `active_stores` is decremented, both exactly
once. -/
theorem store_counter_correct (os : List DrainOutcome) :
    ∀ (s0 : SpiderState) (sid : String) (N : ℕ),
      0 < N → os.length = N → s0.status sid = some (N : ℤ) →
      1 ≤ s0.activeStores →
      (∀ k : ℕ, k < N →
        (runDrains s0 sid (os.take k)).status sid = some ((N : ℤ) - (k : ℤ)) ∧
        (runDrains s0 sid (os.take k)).activeStores = s0.activeStores) ∧
      (runDrains s0 sid os).status sid = none ∧
      (runDrains s0 sid os).activeStores = s0.activeStores - 1 := by
  induction os with
  | nil =>
    intro s0 sid N hN hlen hst hact
    simp at hlen
    omega
  | cons o rest ih =>
    intro s0 sid N hN hlen hst hact
    simp only [List.length_cons] at hlen
    by_cases hM : rest.length = 0
    · -- N = 1: the very first report is the last one
      have hN1 : N = 1 := by omega
      subst hN1
      obtain ⟨hst1, hact1⟩ :=
        catComplete_last s0 sid 1 (by simpa using hst) (by omega) (by omega)
      have hrest : rest = [] := List.length_eq_zero.mp hM
      subst hrest
      refine ⟨?_, ?_, ?_⟩
      · intro k hk
        have hk0 : k = 0 := by omega
        subst hk0
        simp [runDrains, hst]
      · simpa [runDrains, applyDrain] using hst1
      · simpa [runDrains, applyDrain] using hact1
    · -- N ≥ 2: the first report decrements the counter and recurses
      have hN2 : 2 ≤ N := by omega
      have hcast : ((N : ℤ) - 1) = ((N - 1 : ℕ) : ℤ) := by
        push_cast [Nat.cast_sub (by omega : 1 ≤ N)]
        ring
      obtain ⟨hst1, hact1⟩ :=
        catComplete_mid s0 sid (N : ℤ) hst (by exact_mod_cast hN2)
      set s1 := categoryCompleteForStore s0 sid with hs1
      have hih := ih s1 sid (N - 1) (by omega) (by omega)
        (by rw [hst1, hcast]) (by omega)
      have hstep : ∀ l, runDrains s0 sid (o :: l) = runDrains s1 sid l := by
        intro l
        simp [runDrains, applyDrain, hs1]
      refine ⟨?_, ?_, ?_⟩
      · intro k hk
        cases k with
        | zero => simp [runDrains, hst]
        | succ j =>
          have hj : j < N - 1 := by omega
          have h1 := hih.1 j hj
          rw [List.take_succ_cons, hstep]
          refine ⟨?_, ?_⟩
          · rw [h1.1]
            congr 1
            push_cast [Nat.cast_sub (by omega : 1 ≤ N)]
            ring
          · rw [h1.2, hact1]
      · rw [hstep]; exact hih.2.1
      · rw [hstep, hih.2.2, hact1]

/-- Witness for `store_counter_correct`: the demo store with 2 pending
categories, drained by one last-page report and one fetch-failure report. -/
theorem store_counter_correct_witness :
    (runDrains spiderDemoState "s1"
      ([DrainOutcome.lastPage, DrainOutcome.fetchFailure].take 1)).status "s1" =
        some ((2 : ℤ) - (1 : ℤ)) ∧
    (runDrains spiderDemoState "s1" [DrainOutcome.lastPage, DrainOutcome.fetchFailure]).status
        "s1" = none ∧
    (runDrains spiderDemoState "s1"
      [DrainOutcome.lastPage, DrainOutcome.fetchFailure]).activeStores =
        spiderDemoState.activeStores - 1 := by
  have h := store_counter_correct [DrainOutcome.lastPage, DrainOutcome.fetchFailure]
    spiderDemoState "s1" 2 (by decide) (by decide) (by decide) (by decide)
  exact ⟨(h.1 1 (by decide)).1, h.2.1, h.2.2⟩

/-! ## C6 — admission ceiling -/

/-- Helper: the `schedule_next_stores` loop never pushes `active_stores`
past the ceiling. -/
theorem schedAux_le (parallel : ℤ) (queue : List String) :
    ∀ (processed : List String) (active : ℤ), active ≤ parallel →
      (schedAux parallel queue processed active).2.2 ≤ parallel := by
  induction queue with
  | nil => intro _ a h; simpa [schedAux] using h
  | cons st rest ih =>
    intro processed a h
    by_cases hlt : a < parallel
    · by_cases hmem : st ∈ processed
      · rw [schedAux, if_pos hlt, if_pos hmem]
        exact ih processed a h
      · rw [schedAux, if_pos hlt, if_neg hmem]
        exact ih _ _ (by omega)
    · rw [schedAux, if_neg hlt]
      exact h

/-- Helper: on a queue of fresh, pairwise-distinct stores, the
`schedule_next_stores` loop admits exactly up to the ceiling or exhausts
the queue. -/
theorem schedAux_exact (parallel : ℤ) (queue : List String) :
    ∀ (processed : List String) (active : ℤ),
      active ≤ parallel →
      (∀ sid ∈ queue, sid ∉ processed) → queue.Nodup →
      (schedAux parallel queue processed active).2.2 =
        min parallel (active + queue.length) ∧
      (active + (queue.length : ℤ) ≤ parallel →
        (schedAux parallel queue processed active).1 = []) := by
  induction queue with
  | nil =>
    intro processed a ha _ _
    refine ⟨?_, fun _ => by simp [schedAux]⟩
    simp only [schedAux, List.length_nil]
    omega
  | cons st rest ih =>
    intro processed a ha hfresh hnodup
    by_cases hlt : a < parallel
    · have hmem : st ∉ processed := hfresh st (by simp)
      have hfresh1 : ∀ sid ∈ rest, sid ∉ st :: processed := by
        intro sid hs
        simp only [List.mem_cons, not_or]
        refine ⟨?_, hfresh sid (by simp [hs])⟩
        intro hcontra
        subst hcontra
        exact (List.nodup_cons.mp hnodup).1 hs
      have hrec := ih (st :: processed) (a + 1) (by omega) hfresh1
        (List.nodup_cons.mp hnodup).2
      rw [schedAux, if_pos hlt, if_neg hmem]
      refine ⟨?_, ?_⟩
      · rw [hrec.1]
        simp only [List.length_cons]
        push_cast
        omega
      · intro hle
        apply hrec.2
        simp only [List.length_cons] at hle
        push_cast at hle ⊢
        omega
    · rw [schedAux, if_neg hlt]
      refine ⟨?_, ?_⟩
      · simp only [List.length_cons]
        push_cast
        omega
      · intro hle
        exfalso
        simp only [List.length_cons] at hle
        push_cast at hle
        omega

/-- Helper: `schedule_next_stores` keeps the ceiling field unchanged. -/
theorem scheduleNextStores_parallel (s : SpiderState) :
    (scheduleNextStores s).parallelStores = s.parallelStores := rfl

/-- Helper: `category_complete_for_store` keeps the ceiling field
unchanged. -/
theorem catComplete_parallel (s : SpiderState) (sid : String) :
    (categoryCompleteForStore s sid).parallelStores = s.parallelStores := by
  cases h : s.status sid <;> simp [categoryCompleteForStore, h]
  split <;> rfl

/-- Helper: `category_complete_for_store` never increases
`active_stores`. -/
theorem catComplete_active_le (s : SpiderState) (sid : String) :
    (categoryCompleteForStore s sid).activeStores ≤ s.activeStores := by
  cases h : s.status sid with
  | none => simp [categoryCompleteForStore, h]
  | some c =>
    simp only [categoryCompleteForStore, h]
    split
    · dsimp only
      split <;> omega
    · exact le_refl _

/-- C6: `active_stores` never exceeds `parallel_stores` — every scheduler
event (idle scheduling pass, store-setup failure, store start, category
drain) preserves the bound — and an idle signal that fires while
`active_stores` is below the ceiling with a non-empty queue of fresh,
distinct stores admits exactly enough stores to reach the ceiling, or all
queued stores (leaving the queue empty) when fewer are queued. -/
theorem admission_ceiling :
    (∀ (s : SpiderState) (e : SpiderEvent),
      s.activeStores ≤ s.parallelStores →
      (spiderStep s e).activeStores ≤ (spiderStep s e).parallelStores) ∧
    (∀ s : SpiderState,
      s.activeStores < s.parallelStores → s.queue ≠ [] →
      (∀ sid ∈ s.queue, sid ∉ s.processed) → s.queue.Nodup →
      (spiderIdle s).activeStores =
        min s.parallelStores (s.activeStores + s.queue.length) ∧
      (s.activeStores + (s.queue.length : ℤ) ≤ s.parallelStores →
        (spiderIdle s).queue = [])) := by
  constructor
  · intro s e h
    cases e with
    | idle =>
      simp only [spiderStep, spiderIdle]
      split
      · exact schedAux_le s.parallelStores s.queue s.processed s.activeStores h
      · exact h
    | storeError sid =>
      exact schedAux_le s.parallelStores s.queue s.processed (s.activeStores - 1)
        (by omega)
    | storeStartOk sid n => exact h
    | storeStartBad sid => simpa [spiderStep] using (by omega : s.activeStores - 1 ≤ s.parallelStores)
    | catDone sid o =>
      calc (spiderStep s (.catDone sid o)).activeStores
          ≤ s.activeStores := catComplete_active_le s sid
        _ ≤ s.parallelStores := h
        _ = (spiderStep s (.catDone sid o)).parallelStores :=
            (catComplete_parallel s sid).symm
  · intro s hlt hq hfresh hnodup
    have hidle : spiderIdle s = scheduleNextStores s := if_pos ⟨hlt, hq⟩
    have h := schedAux_exact s.parallelStores s.queue s.processed s.activeStores
      (le_of_lt hlt) hfresh hnodup
    rw [hidle]
    exact h

/-- Witness for `admission_ceiling`: a drain event on the demo state
preserves the ceiling, and the idle signal on the demo state (1 active,
ceiling 2, two fresh queued stores) admits exactly one store. -/
theorem admission_ceiling_witness :
    (spiderStep spiderDemoState (.catDone "s1" .lastPage)).activeStores ≤
      (spiderStep spiderDemoState (.catDone "s1" .lastPage)).parallelStores ∧
    (spiderIdle spiderDemoState).activeStores =
      min spiderDemoState.parallelStores
        (spiderDemoState.activeStores + spiderDemoState.queue.length) := by
  refine ⟨admission_ceiling.1 spiderDemoState _ (by decide), ?_⟩
  exact (admission_ceiling.2 spiderDemoState (by decide) (by decide) (by decide)
    (by decide)).1

/-! ## C2 — blocked proxies are terminal -/

/-- Helper: membership through stable descending insertion. -/
theorem mem_insertDesc (x y : String × ℚ) (l : List (String × ℚ)) :
    y ∈ insertDesc x l ↔ y = x ∨ y ∈ l := by
  induction l with
  | nil => simp [insertDesc]
  | cons z zs ih =>
    simp only [insertDesc]
    split
    · simp [List.mem_cons]
    · simp only [List.mem_cons, ih]
      tauto

/-- Helper: the stable descending sort contains exactly the elements of
its input. -/
theorem mem_sortDesc (y : String × ℚ) (l : List (String × ℚ)) :
    y ∈ sortDesc l ↔ y ∈ l := by
  induction l with
  | nil => simp [sortDesc]
  | cons z zs ih => simp [sortDesc, mem_insertDesc, ih]

/-- Helper: `random.choice` returns a member of its list. -/
theorem listChoice_mem (l : List (String × ℚ)) (i : ℕ) (x : String × ℚ)
    (h : listChoice l i = some x) : x ∈ l :=
  List.get?_mem h

/-- Helper: a proxy delivered by the enhanced pool filter is not in
`walmart_blocked_ips`. -/
theorem eFilterPool_not_blocked (s : EState) (now : ℤ) (pool : List EProxyInfo)
    (base : ℚ) (p : String) (q : ℚ) (h : (p, q) ∈ eFilterPool s now pool base) :
    p ∉ s.blocked := by
  simp only [eFilterPool, List.mem_filterMap] at h
  obtain ⟨info, _, hf⟩ := h
  split_ifs at hf with h1 h2 h3
  have hfst := congrArg Prod.fst (Option.some.inj hf)
  dsimp at hfst
  rw [← hfst]
  exact h1

/-- Helper: every proxy in `available_proxies` avoids the blocklist. -/
theorem eAvailable_not_blocked (s : EState) (now : ℤ) (p : String) (q : ℚ)
    (h : (p, q) ∈ eAvailable s now) : p ∉ s.blocked := by
  simp only [eAvailable, List.mem_append] at h
  rcases h with (h | h) | h
  · exact eFilterPool_not_blocked s now s.residential 100 p q h
  · exact eFilterPool_not_blocked s now s.mobile 80 p q h
  · exact eFilterPool_not_blocked s now s.datacenter 30 p q h

/-- Helper: the selection step (top-1 or random among the top 3) picks a
member of `available_proxies`. -/
theorem eSelect_mem (avail : List (String × ℚ)) (o : SelOracle) (x : String × ℚ)
    (h : (if o.coin ∧ 3 < avail.length then listChoice ((sortDesc avail).take 3) o.pick
          else (sortDesc avail).head?) = some x) :
    x ∈ avail := by
  rw [← mem_sortDesc]
  split at h
  · exact List.take_subset 3 _ (listChoice_mem _ _ _ h)
  · cases hl : sortDesc avail with
    | nil => rw [hl] at h; exact Option.noConfusion h
    | cons a as =>
      rw [hl] at h
      simp only [List.head?] at h
      exact Option.some.inj h ▸ List.mem_cons_self a as

/-- Helper: `get_proxy` never changes `walmart_blocked_ips` (the
emergency reset only clears cooldowns and consecutive-failure counts). -/
theorem getProxyE_blocked_eq (fuel : ℕ) :
    ∀ (s : EState) (now : ℤ) (ctx : Option ReqCtx) (o : SelOracle),
      (getProxyE fuel s now ctx o).2.blocked = s.blocked := by
  induction fuel with
  | zero => intro s now ctx o; rfl
  | succ n ih =>
    intro s now ctx o
    simp only [getProxyE]
    split
    · rw [ih]; rfl
    · split
      · rfl
      · rfl

/-- Helper: `get_proxy` never returns a blocklisted proxy, whatever the
fuel (however many emergency resets happen). -/
theorem getProxyE_not_blocked (fuel : ℕ) :
    ∀ (s : EState) (now : ℤ) (ctx : Option ReqCtx) (o : SelOracle) (p : String),
      p ∈ s.blocked → (getProxyE fuel s now ctx o).1 ≠ some p := by
  induction fuel with
  | zero => intro s now ctx o p _; simp [getProxyE]
  | succ n ih =>
    intro s now ctx o p hp
    simp only [getProxyE]
    split
    · exact ih (eResetAll s) now ctx o p hp
    · split
      · simp
      · rename_i q sc heq
        have hmem := eSelect_mem (eAvailable s now) o (q, sc) heq
        have hnb := eAvailable_not_blocked s now q sc hmem
        intro hcontra
        exact hnb (Option.some.inj hcontra ▸ hp)

/-- Helper: `record_failure` only ever grows the blocklist. -/
theorem recordFailureE_blocked_mono (s : EState) (q : String) (now : ℤ)
    (isBot : Bool) (p : String) (hp : p ∈ s.blocked) :
    p ∈ (recordFailureE s q now isBot).blocked := by
  cases isBot with
  | false => exact hp
  | true =>
    have hbl : (recordFailureE s q now true).blocked =
        if 3 ≤ (s.stats q).botDetections + 1 then q :: s.blocked else s.blocked := rfl
    rw [hbl]
    by_cases h3 : 3 ≤ (s.stats q).botDetections + 1
    · rw [if_pos h3]
      exact List.mem_cons_of_mem q hp
    · rw [if_neg h3]
      exact hp

/-- Helper: once blocklisted, a proxy stays blocklisted over any sequence
of manager operations, and no `get_proxy` call in the sequence hands it
out. -/
theorem blocked_persists (p : String) (ops : List EOp) :
    ∀ s : EState, p ∈ s.blocked →
      p ∈ (runE s ops).blocked ∧ some p ∉ outputsE s ops := by
  induction ops with
  | nil => intro s hp; exact ⟨hp, by simp [outputsE]⟩
  | cons op rest ih =>
    intro s hp
    have hstep : p ∈ (execE s op).1.blocked ∧ (execE s op).2 ≠ some p := by
      cases op with
      | get fuel now ctx o =>
        refine ⟨?_, ?_⟩
        · simpa [execE, getProxyE_blocked_eq] using hp
        · simpa [execE] using (getProxyE_not_blocked fuel s now ctx o p hp).symm.imp
            fun h => h.symm
      | success q now rt => exact ⟨hp, by simp [execE]⟩
      | failure q now isBot =>
        exact ⟨recordFailureE_blocked_mono s q now isBot p hp, by simp [execE]⟩
    have hrec := ih (execE s op).1 hstep.1
    refine ⟨by simpa [runE] using hrec.1, ?_⟩
    simp only [outputsE, List.mem_cons, not_or]
    exact ⟨fun h => hstep.2 h.symm, hrec.2⟩

/-- C2: the third `record_failure` with bot detection (default threshold
3) puts the proxy into `walmart_blocked_ips`, a terminal state: over any
subsequent sequence of `get_proxy` / `record_success` / `record_failure`
operations — including `get_proxy` calls that go through the emergency
reset clearing all cooldowns and consecutive-failure counts — the proxy
stays blocklisted and is never returned by a selection. -/
theorem blocked_proxy_terminal (s : EState) (p : String) (now : ℤ)
    (ops : List EOp) (h : (s.stats p).botDetections = 2) :
    p ∈ (recordFailureE s p now true).blocked ∧
    p ∈ (runE (recordFailureE s p now true) ops).blocked ∧
    some p ∉ outputsE (recordFailureE s p now true) ops := by
  have hb : p ∈ (recordFailureE s p now true).blocked := by
    simp [recordFailureE, h]
  exact ⟨hb, (blocked_persists p ops _ hb).1, (blocked_persists p ops _ hb).2⟩

/-- Witness for `blocked_proxy_terminal`: the demo proxy with two prior
detections receives its third, then survives a `get_proxy` (which runs
the emergency path, all proxies being blocked), a success report and
another failure report without ever being selected. -/
theorem blocked_proxy_terminal_witness :
    (eDemoState2.stats "p1").botDetections = 2 ∧
    "p1" ∈ (recordFailureE eDemoState2 "p1" 0 true).blocked ∧
    "p1" ∈ (runE (recordFailureE eDemoState2 "p1" 0 true)
      [.get 3 0 none ⟨false, 0⟩, .success "p1" 5 (some 1), .failure "p1" 9 false]).blocked ∧
    some "p1" ∉ outputsE (recordFailureE eDemoState2 "p1" 0 true)
      [.get 3 0 none ⟨false, 0⟩, .success "p1" 5 (some 1), .failure "p1" 9 false] := by
  have h := blocked_proxy_terminal eDemoState2 "p1" 0
    [.get 3 0 none ⟨false, 0⟩, .success "p1" 5 (some 1), .failure "p1" 9 false]
    (by decide)
  exact ⟨by decide, h.1, h.2.1, h.2.2⟩

/-! ## C9 — bot-detection cooldown lengths -/

/-- C9 counterexample: the first bot detection on a fresh proxy in the
`EnhancedProxyManager` receives a flat 30-minute cooldown (1800 s from
the call, `record_failure` line 292), whereas the claimed formula
`min(60, 10 · d²)` gives 10 minutes (600 s) for `d = 1`. -/
theorem enhanced_bot_cooldown_flat :
    ((recordFailureE eDemoState "p1" 0 true).stats "p1").cooldownUntil = some 1800 ∧
    (1800 : ℤ) ≠ 0 + 60 * ((min 60 (10 * 1 ^ 2) : ℕ) : ℤ) := by
  exact ⟨by decide, by decide⟩

/-- C9 (amended): the quadratic cooldown `min(60, 10 · d²)` minutes for
the `d`-th bot detection is applied by the `AdaptiveProxyManager`
(`record_failure` line 282); the `EnhancedProxyManager` instead applies a
flat 30-minute cooldown on every bot detection (`record_failure`
line 292). -/
theorem bot_cooldown_formulas (sa : AState) (se : EState) (p : String) (now : ℤ) :
    ((recordFailureA sa p now true).stats p).cooldownUntil =
      some (now + 60 * ((min 60 (10 * ((sa.stats p).botDetections + 1) ^ 2) : ℕ) : ℤ)) ∧
    ((recordFailureE se p now true).stats p).cooldownUntil = some (now + 60 * 30) := by
  constructor
  · simp [recordFailureA, updStatsA]
  · simp [recordFailureE, updStats]

/-! ## C3 — behaviour when no proxy is eligible -/

/-- C3 counterexample (adaptive manager, `get_proxy` lines 209–213): with
a single proxy that was just used (so the adaptive rate limit makes it
ineligible), no proxy is eligible, and re-running the eligibility filter
after the cooldown reset still yields no eligible proxy — yet the call
returns the proxy anyway (via `random.choice` over the full list) instead
of failing with a selection failure. -/
theorem adaptive_emergency_substitutes_proxy :
    aFilter (aSubnetReset aDemoState 0) 0 none = [] ∧
    aFilter (aClearCooldowns (aSubnetReset aDemoState 0)) 0 none = [] ∧
    (getProxyA aDemoState 0 none ⟨false, 0⟩).1 = some "p1" := by
  exact ⟨by decide, by decide, by decide⟩

/-- Helper: `random.choice` over a non-empty raw proxy list yields a
member. -/
theorem listChoiceS_mem (l : List String) (i : ℕ) (h : l ≠ []) :
    ∃ p ∈ l, listChoiceS l i = some p := by
  have hlen : 0 < l.length := List.length_pos.mpr h
  have hi : i % l.length < l.length := Nat.mod_lt _ hlen
  refine ⟨l.get ⟨i % l.length, hi⟩, List.get_mem _ _ _, ?_⟩
  simp [listChoiceS, List.get?_eq_get hi]

/-- C3 (amended): when the adaptive `get_proxy` finds no eligible proxy,
it clears every proxy's cooldown and immediately returns a uniformly
random member of the full proxy list without re-running the scoring
filter — it returns `None` only when the proxy list itself is empty, and
otherwise hands out an arbitrary, unscored proxy rather than reporting a
selection failure.  (The enhanced manager instead re-invokes itself
recursively after its reset, with no failure result either.) -/
theorem adaptive_emergency_reset_behavior (s0 : AState) (now : ℤ)
    (ctx : Option ReqCtx) (o : SelOracle)
    (h : aFilter (aSubnetReset s0 now) now ctx = []) :
    ((getProxyA s0 now ctx o).2 = aClearCooldowns (aSubnetReset s0 now) ∧
    (s0.proxies = [] → (getProxyA s0 now ctx o).1 = none) ∧
    (s0.proxies ≠ [] → ∃ p ∈ s0.proxies, (getProxyA s0 now ctx o).1 = some p)) ∧
    (∀ (fuel : ℕ) (se : EState) (ectx : Option ReqCtx) (oe : SelOracle) (t : ℤ),
      (eAvailable se t).isEmpty = true →
      getProxyE (fuel + 1) se t ectx oe = getProxyE fuel (eResetAll se) t ectx oe) := by
  refine ⟨?_, fun fuel se ectx oe t he => by simp [getProxyE, he]⟩
  have hprox : (aSubnetReset s0 now).proxies = s0.proxies := by
    simp only [aSubnetReset]
    split <;> rfl
  simp only [getProxyA, h, List.isEmpty_nil, if_true, hprox]
  refine ⟨trivial, ?_, ?_⟩
  · intro hnil
    simp [hnil]
  · intro hne
    have hie : s0.proxies.isEmpty = false := by
      cases hp : s0.proxies with
      | nil => exact absurd hp hne
      | cons a as => rfl
    obtain ⟨p, hmem, hch⟩ := listChoiceS_mem s0.proxies o.pick hne
    exact ⟨p, hmem, by simp [hie, hch]⟩

/-- Witness for `adaptive_emergency_reset_behavior` on the demo state. -/
theorem adaptive_emergency_reset_behavior_witness :
    (getProxyA aDemoState 0 none ⟨false, 0⟩).2 =
      aClearCooldowns (aSubnetReset aDemoState 0) ∧
    (∃ p ∈ aDemoState.proxies, (getProxyA aDemoState 0 none ⟨false, 0⟩).1 = some p) ∧
    getProxyE 1 (recordFailureE eDemoState2 "p1" 0 true) 0 none ⟨false, 0⟩ =
      getProxyE 0 (eResetAll (recordFailureE eDemoState2 "p1" 0 true)) 0 none
        ⟨false, 0⟩ := by
  have h := adaptive_emergency_reset_behavior aDemoState 0 none ⟨false, 0⟩ (by decide)
  exact ⟨h.1.1, h.1.2.2 (by decide),
    h.2 0 (recordFailureE eDemoState2 "p1" 0 true) none ⟨false, 0⟩ 0 (by decide)⟩

/-! ## C7 — exclusion of the previously used proxy on retries -/

/-- C7 counterexample: the `EnhancedProxyManager.get_proxy` never reads
its `request_context` argument; with a single available proxy `"p1"` and
a retry context (`retry_count = 1`) carrying `last_proxy = "p1"`, the
selection returns `"p1"` — the previously used proxy. -/
theorem enhanced_ignores_last_proxy :
    (getProxyE 2 eDemoState 0 (some ⟨"product", 1, some "p1"⟩) ⟨false, 0⟩).1 =
      some "p1" := by
  decide

/-- Helper: a proxy delivered by the adaptive filter under a retry
context is not the context's `last_proxy`. -/
theorem aFilter_mem_not_last (s : AState) (now : ℤ) (c : ReqCtx) (p : String)
    (sc : ℚ) (hmem : (p, sc) ∈ aFilter s now (some c)) (hretry : 0 < c.retryCount) :
    c.lastProxy ≠ some p := by
  simp only [aFilter, List.mem_filterMap] at hmem
  obtain ⟨q, _, hf⟩ := hmem
  intro hlast
  split_ifs at hf <;> simp_all

/-- Helper: the adaptive selection step (top-1 or random among the top 5)
picks a member of the filtered list. -/
theorem aSelect_mem (avail : List (String × ℚ)) (o : SelOracle) (x : String × ℚ)
    (h : (if o.coin ∧ 5 < avail.length then listChoice ((sortDesc avail).take 5) o.pick
          else (sortDesc avail).head?) = some x) :
    x ∈ avail := by
  rw [← mem_sortDesc]
  split at h
  · exact List.take_subset 5 _ (listChoice_mem _ _ _ h)
  · cases hl : sortDesc avail with
    | nil => rw [hl] at h; exact Option.noConfusion h
    | cons a as =>
      rw [hl] at h
      simp only [List.head?] at h
      exact Option.some.inj h ▸ List.mem_cons_self a as

/-- C7 (amended): the previously used proxy of a retry context is
excluded only by the `AdaptiveProxyManager`, and only on its normal path:
whenever the adaptive eligibility filter is non-empty, the selection
never returns the context's `last_proxy`.  (The enhanced manager ignores
the context — see the counterexample — and the adaptive emergency path
may also return it.) -/
theorem adaptive_normal_path_excludes_last_proxy (s0 : AState) (now : ℤ)
    (c : ReqCtx) (o : SelOracle) (p : String)
    (hretry : 0 < c.retryCount)
    (hne : aFilter (aSubnetReset s0 now) now (some c) ≠ [])
    (hsel : (getProxyA s0 now (some c) o).1 = some p) :
    c.lastProxy ≠ some p := by
  have hie : (aFilter (aSubnetReset s0 now) now (some c)).isEmpty = false := by
    cases hp : aFilter (aSubnetReset s0 now) now (some c) with
    | nil => exact absurd hp hne
    | cons a as => rfl
  simp only [getProxyA, hie, Bool.false_eq_true, if_false] at hsel
  cases hsome : (if o.coin ∧ 5 < (aFilter (aSubnetReset s0 now) now (some c)).length then
      listChoice ((sortDesc (aFilter (aSubnetReset s0 now) now (some c))).take 5) o.pick
    else (sortDesc (aFilter (aSubnetReset s0 now) now (some c))).head?) with
  | none =>
    rw [hsome] at hsel
    exact Option.noConfusion hsel
  | some x =>
    rw [hsome] at hsel
    have hx : x.1 = p := Option.some.inj hsel
    have hmem := aSelect_mem _ o x hsome
    have := aFilter_mem_not_last (aSubnetReset s0 now) now c x.1 x.2 (by simpa using hmem)
      hretry
    rw [← hx]
    exact this

/-- Witness for `adaptive_normal_path_excludes_last_proxy`: with two
fresh proxies and a retry context carrying `last_proxy = "b"`, the
adaptive selection returns `"a"`, which the theorem certifies differs
from the context's `last_proxy`. -/
theorem adaptive_normal_excludes_witness :
    (getProxyA aDemoState2 0 (some ⟨"", 1, some "b"⟩) ⟨false, 0⟩).1 = some "a" ∧
    (ReqCtx.mk "" 1 (some "b")).lastProxy ≠ some "a" := by
  refine ⟨by decide, ?_⟩
  exact adaptive_normal_path_excludes_last_proxy aDemoState2 0 ⟨"", 1, some "b"⟩
    ⟨false, 0⟩ "a" (by decide) (by decide) (by decide)

/-! ## C5 — retry after bot detection -/

/-- C5 counterexample: the hybrid middleware's `_return_browser` puts a
bot-detected session straight back into the pool with no proxy-failure
recording and no quarantine, and the next acquire — the retry — receives
the very same session, bound to the very same proxy. -/
theorem hybrid_retries_bot_detected_session :
    hybridReturnBrowser .botDetected [] hDemoSession = [hDemoSession] ∧
    hybridAcquire (hybridReturnBrowser .botDetected [] hDemoSession) =
      some (hDemoSession, []) :=
  ⟨rfl, rfl⟩

/-- C5 (amended): neither middleware quarantines a bot-detected session
before a retry.  The hybrid middleware's `_return_browser` re-pools the
session whatever the outcome was (first conjunct; the counterexample
shows the retry then receiving the same session/proxy pairing).  In the
enhanced middleware the intended quarantine never executes: the call
`record_failure(proxy, bot_detected=True)` (line 617) raises `TypeError`
— `EnhancedProxyManager.record_failure` takes `is_bot_detection` — so
the bot-detection count is never incremented and no 30-minute cooldown
is applied; the generic handler records a plain failure (a 1-minute
cooldown when the proxy had no consecutive failures) and the propagated
error is not a `BotDetectionError`, so `_release_enhanced_browser`
returns the session to the pool whenever its request count is at most
100 — an acquire from an otherwise empty pool (the retry) then receives
the very same session. -/
theorem bot_detection_not_quarantined (se : EState) (pool : List EBrowser)
    (b : EBrowser) (now : ℤ)
    (hrc : ¬ 100 < b.requestCount)
    (hcf : (se.stats b.proxy).consecutiveFailures = 0) :
    (∀ (r : FetchResult) (pool0 : List HSession) (hb : HSession),
      hybridReturnBrowser r pool0 hb = pool0 ++ [hb]) ∧
    ((enhancedBotDetectionFlow se pool b now).1.stats b.proxy).botDetections =
      (se.stats b.proxy).botDetections ∧
    (enhancedBotDetectionFlow se pool b now).1.blocked = se.blocked ∧
    ((enhancedBotDetectionFlow se pool b now).1.stats b.proxy).cooldownUntil =
      some (now + 60 * 1) ∧
    (enhancedBotDetectionFlow se pool b now).2.1 = pool ++ [b] ∧
    enhancedAcquire (enhancedBotDetectionFlow se [] b now).2.1 = some (b, []) := by
  refine ⟨fun r pool0 hb => rfl, ?_, rfl, ?_, ?_, ?_⟩
  · simp only [enhancedBotDetectionFlow, recordFailureE]
    split_ifs <;> simp_all [updStats]
  · simp [enhancedBotDetectionFlow, recordFailureE, updStats, hcf]
  · simp [enhancedBotDetectionFlow, enhancedReleaseBrowser, hrc]
  · simp [enhancedBotDetectionFlow, enhancedReleaseBrowser, hrc, enhancedAcquire]

/-- Witness for `bot_detection_not_quarantined` on a concrete pool and a
fresh proxy: the flow leaves the detection count at 0, applies only the
1-minute generic cooldown, re-pools the session, and the next acquire
from an otherwise empty pool yields the same session again. -/
theorem bot_detection_not_quarantined_witness :
    ((enhancedBotDetectionFlow eDemoState [⟨1, "q", true, 0⟩]
        ⟨0, "p", true, 5⟩ 0).1.stats "p").botDetections = 0 ∧
    ((enhancedBotDetectionFlow eDemoState [⟨1, "q", true, 0⟩]
        ⟨0, "p", true, 5⟩ 0).1.stats "p").cooldownUntil = some (0 + 60 * 1) ∧
    (enhancedBotDetectionFlow eDemoState [⟨1, "q", true, 0⟩]
        ⟨0, "p", true, 5⟩ 0).2.1 = [⟨1, "q", true, 0⟩, ⟨0, "p", true, 5⟩] ∧
    enhancedAcquire (enhancedBotDetectionFlow eDemoState [] ⟨0, "p", true, 5⟩ 0).2.1 =
      some (⟨0, "p", true, 5⟩, []) := by
  have h := bot_detection_not_quarantined eDemoState [⟨1, "q", true, 0⟩]
    ⟨0, "p", true, 5⟩ 0 (by decide) (by decide)
  exact ⟨h.2.1, h.2.2.2.1, h.2.2.2.2.1, h.2.2.2.2.2⟩

end RetailScraper
